import Mathlib

/-!
Verification of the cart-pole dynamics model (`ilqr/examples/cartpole.py`).

The development shallowly embeds the source in Lean over exact real
arithmetic:

* `arctan2 y x` is the two-argument arctangent (numpy `arctan2`), realised
  as the argument of the complex number `x + y*I`, which lands in `(-π, π]`.
* `tensor_constrain` is the bounded control-squashing collaborator.
* `cartpole_dynamics` / `cartpole_f` embed the symbolic transition function
  built in `CartpoleDynamics.__init__` (Florian eqs. 23–24, explicit Euler).
* `augment_state` / `reduce_state` embed the single-vector conversion paths;
  `augment_stateV`, `reduce_stateV`, `augment_stateB`, `reduce_stateB` embed
  the shape-inspecting vector/batch code paths over lists, returning `none`
  exactly where the numeric layer would raise a shape error.
-/

open Real

noncomputable section

/-- Two-argument arctangent: `arctan2 y x` is the angle of the point
`(x, y)`, in the range `(-π, π]` (numpy / Theano `arctan2`). -/
def arctan2 (y x : ℝ) : ℝ := Complex.arg ⟨x, y⟩

/-- Modelled from the spec: the control-squashing collaborator
`tensor_constrain` lives in `ilqr.dynamics`, outside this repository's
source tree.  The spec requires a differentiable, monotonic, smoothly
saturating squash of the raw control into `[min_bounds, max_bounds]`
(not a hard clip); it is modelled as the standard tanh squash
`diff * tanh(u) + mean` with `diff = (max-min)/2`, `mean = (max+min)/2`. -/
def tensor_constrain (u min_bounds max_bounds : ℝ) : ℝ :=
  (max_bounds - min_bounds) / 2 * Real.tanh u + (max_bounds + min_bounds) / 2

/-- The effective force: `tensor_constrain(u, min_bounds, max_bounds)` when
`constrain` is set, the raw control `u` otherwise
(the `if constrain:` branch of `CartpoleDynamics.__init__`). -/
def cartpole_F (constrain : Bool) (min_bounds max_bounds u : ℝ) : ℝ :=
  if constrain then tensor_constrain u min_bounds max_bounds else u

/-- The denominator of Florian eq. 23 as written in the source:
`l * (4.0 / 3.0 - mp * cos_theta**2 / (mc + mp))`. -/
def cartpole_denominator (mc mp l cos_theta : ℝ) : ℝ :=
  l * (4 / 3 - mp * cos_theta ^ 2 / (mc + mp))

/-- The symbolic transition function of `CartpoleDynamics.__init__`,
taking the five augmented-state components and the effective force `F`
(the control after the optional squashing). -/
def cartpole_dynamics (dt mc mp l g x x_dot sin_theta cos_theta theta_dot F : ℝ) :
    Fin 5 → ℝ :=
  let temp := (F + mp * l * theta_dot ^ 2 * sin_theta) / (mc + mp)
  let numerator := g * sin_theta - cos_theta * temp
  let theta_dot_dot := numerator / cartpole_denominator mc mp l cos_theta
  let x_dot_dot := temp - mp * l * theta_dot_dot * cos_theta / (mc + mp)
  let theta := arctan2 sin_theta cos_theta
  let next_theta := theta + theta_dot * dt
  ![x + x_dot * dt,
    x_dot + x_dot_dot * dt,
    Real.sin next_theta,
    Real.cos next_theta,
    theta_dot + theta_dot_dot * dt]

/-- The full transition function on an augmented-state vector and raw
control, squashing the control first when `constrain` is set. -/
def cartpole_f (dt : ℝ) (constrain : Bool) (min_bounds max_bounds mc mp l g : ℝ)
    (state : Fin 5 → ℝ) (u : ℝ) : Fin 5 → ℝ :=
  cartpole_dynamics dt mc mp l g (state 0) (state 1) (state 2) (state 3) (state 4)
    (cartpole_F constrain min_bounds max_bounds u)

/-- `CartpoleDynamics.augment_state` on a single (length-4) vector:
`[x, x_dot, theta, theta_dot] -> [x, x_dot, sin(theta), cos(theta), theta_dot]`. -/
def augment_state (s : Fin 4 → ℝ) : Fin 5 → ℝ :=
  ![s 0, s 1, Real.sin (s 2), Real.cos (s 2), s 3]

/-- `CartpoleDynamics.reduce_state` on a single (length-5) vector:
`[x, x_dot, sin_theta, cos_theta, theta_dot] -> [x, x_dot, theta, theta_dot]`
with `theta = arctan2(sin_theta, cos_theta)`. -/
def reduce_state (a : Fin 5 → ℝ) : Fin 4 → ℝ :=
  ![a 0, a 1, arctan2 (a 2) (a 3), a 4]

end

/-- Helper: the angle produced by `arctan2` always lies in `(-π, π]`. -/
theorem arctan2_mem_Ioc (y x : ℝ) : arctan2 y x ∈ Set.Ioc (-π) π :=
  Complex.arg_mem_Ioc _

/-- Helper: `arctan2 (sin θ) (cos θ) = θ` for `θ` in the canonical range. -/
theorem arctan2_sin_cos {θ : ℝ} (h : θ ∈ Set.Ioc (-π) π) :
    arctan2 (Real.sin θ) (Real.cos θ) = θ := by
  unfold arctan2
  rw [Complex.mk_eq_add_mul_I, Complex.ofReal_cos, Complex.ofReal_sin]
  exact Complex.arg_cos_add_sin_mul_I h

/-- C1: for every augmented state and effective force `F`, the constructed
transition function computes exactly
`temp = (F + mp*l*theta_dot^2*sin_theta)/(mc+mp)`,
`theta_dot_dot = (g*sin_theta - cos_theta*temp)/(l*(4/3 - mp*cos_theta^2/(mc+mp)))`,
`x_dot_dot = temp - mp*l*theta_dot_dot*cos_theta/(mc+mp)`,
`next_theta = arctan2(sin_theta, cos_theta) + theta_dot*dt`, and returns
`[x + x_dot*dt, x_dot + x_dot_dot*dt, sin(next_theta), cos(next_theta),
theta_dot + theta_dot_dot*dt]`. -/
theorem cartpole_dynamics_formula
    (dt mc mp l g x x_dot sin_theta cos_theta theta_dot F : ℝ) :
    cartpole_dynamics dt mc mp l g x x_dot sin_theta cos_theta theta_dot F =
      ![x + x_dot * dt,
        x_dot + ((F + mp * l * theta_dot ^ 2 * sin_theta) / (mc + mp) -
          mp * l *
            ((g * sin_theta -
                cos_theta * ((F + mp * l * theta_dot ^ 2 * sin_theta) / (mc + mp))) /
              (l * (4 / 3 - mp * cos_theta ^ 2 / (mc + mp)))) *
            cos_theta / (mc + mp)) * dt,
        Real.sin (arctan2 sin_theta cos_theta + theta_dot * dt),
        Real.cos (arctan2 sin_theta cos_theta + theta_dot * dt),
        theta_dot +
          ((g * sin_theta -
              cos_theta * ((F + mp * l * theta_dot ^ 2 * sin_theta) / (mc + mp))) /
            (l * (4 / 3 - mp * cos_theta ^ 2 / (mc + mp)))) * dt] := by
  rfl

/-- Helper: `arctan2 0 1 = 0` (the angle of the point `(1, 0)`). -/
theorem arctan2_zero_one : arctan2 0 1 = 0 := by
  unfold arctan2
  rw [show (⟨1, 0⟩ : ℂ) = 1 by rw [Complex.mk_eq_add_mul_I]; simp]
  exact Complex.arg_one

/-- Helper: `arctan2 0 (-1) = π` (the angle of the point `(-1, 0)`). -/
theorem arctan2_zero_neg_one : arctan2 0 (-1) = π := by
  unfold arctan2
  rw [show (⟨-1, 0⟩ : ℂ) = -1 by rw [Complex.mk_eq_add_mul_I]; simp]
  exact Complex.arg_neg_one

/-- C2: for every reduced state `s = [x, x_dot, theta, theta_dot]` with
`theta ∈ (-π, π]`, `reduce_state (augment_state s) = s` element-wise; the
angle is recovered by the two-argument arctangent of `(sin, cos)`. -/
theorem reduce_augment_round_trip (s : Fin 4 → ℝ) (h : s 2 ∈ Set.Ioc (-π) π) :
    reduce_state (augment_state s) = s := by
  funext i
  fin_cases i <;> simp [reduce_state, augment_state, arctan2_sin_cos h]

/-- Witness for C2 at the concrete reduced state `[1, 2, 0, 3]`. -/
theorem reduce_augment_round_trip_witness :
    reduce_state (augment_state ![1, 2, 0, 3]) = ![1, 2, 0, 3] :=
  reduce_augment_round_trip ![1, 2, 0, 3]
    ⟨by simpa using Real.pi_pos, by simpa using Real.pi_pos.le⟩

/-- C3: with zero control (squashed through the default bounds `[-1, 1]`),
zero velocities and the upright angle (`sin_theta = 0`, `cos_theta = 1`),
the transition function returns the current state `[x, 0, 0, 1, 0]`:
the cart-pole at rest at the unstable equilibrium stays at rest. -/
theorem cartpole_equilibrium_fixed_point (x dt mc mp l g : ℝ) :
    cartpole_f dt true (-1) 1 mc mp l g ![x, 0, 0, 1, 0] 0 = ![x, 0, 0, 1, 0] := by
  funext i
  fin_cases i <;>
    simp [cartpole_f, cartpole_dynamics, cartpole_F, tensor_constrain,
      cartpole_denominator, arctan2_zero_one, Real.tanh_zero]

/-- C7: the angle produced by `reduce_state` always lies in `(-π, π]`, and
reducing the augmentation of the reduced state with `theta = 3π` yields the
angle `π` (`3π mod 2π` mapped into `(-π, π]`). -/
theorem reduce_state_angle_normalization :
    (∀ a : Fin 5 → ℝ, reduce_state a 2 ∈ Set.Ioc (-π) π) ∧
      reduce_state (augment_state ![0, 0, 3 * π, 0]) = ![0, 0, π, 0] := by
  constructor
  · intro a
    simpa [reduce_state] using arctan2_mem_Ioc (a 2) (a 3)
  · funext i
    have h3 : (3 : ℝ) * π = π + 2 * π := by ring
    fin_cases i <;>
      simp [reduce_state, augment_state, h3, Real.sin_add_two_pi,
        Real.cos_add_two_pi, Real.sin_pi, Real.cos_pi, arctan2_zero_neg_one]

/-- C9: the unit-norm invariant `sin² + cos² = 1` on the `(sin_theta,
cos_theta)` components holds by construction: `augment_state` produces
components satisfying it, and the transition function's output components
satisfy it for every state and control. -/
theorem sin_cos_unit_norm_invariant :
    (∀ s : Fin 4 → ℝ, augment_state s 2 ^ 2 + augment_state s 3 ^ 2 = 1) ∧
      ∀ (dt : ℝ) (constrain : Bool) (min_bounds max_bounds mc mp l g : ℝ)
        (state : Fin 5 → ℝ) (u : ℝ),
        cartpole_f dt constrain min_bounds max_bounds mc mp l g state u 2 ^ 2 +
          cartpole_f dt constrain min_bounds max_bounds mc mp l g state u 3 ^ 2 = 1 := by
  constructor
  · intro s
    simp [augment_state, Real.sin_sq_add_cos_sq]
  · intro dt constrain min_bounds max_bounds mc mp l g state u
    simp [cartpole_f, cartpole_dynamics, Real.sin_sq_add_cos_sq]

/-- C10: reducing, re-augmenting and reducing again equals reducing once,
for every augmented state (even one whose `(sin, cos)` pair is not
unit-norm): the angle `reduce_state` produces is already canonical. -/
theorem reduce_augment_reduce_fixed_point (a : Fin 5 → ℝ) :
    reduce_state (augment_state (reduce_state a)) = reduce_state a := by
  funext i
  fin_cases i <;>
    simp [reduce_state, augment_state,
      arctan2_sin_cos (arctan2_mem_Ioc (a 2) (a 3))]

/- Shape-inspecting code paths: the source dispatches on `state.ndim` and
unpacks / column-indexes numpy arrays.  Vectors are modelled as `List ℝ`
and batches as `List (List ℝ)` (rows); `none` marks exactly the points
where the numeric layer raises (tuple-unpacking of a wrong-length vector,
column index out of range). -/

/-- Numpy-style bounds-checked element access `row[j]`. -/
def getEntry : List ℝ → ℕ → Option ℝ
  | [], _ => none
  | a :: _, 0 => some a
  | _ :: r, j + 1 => getEntry r j

/-- Column extraction `state[:, j]`: fails iff the column index is out of
range for some row. -/
def getCol : List (List ℝ) → ℕ → Option (List ℝ)
  | [], _ => some []
  | row :: rest, j =>
    match getEntry row j, getCol rest j with
    | some v, some vs => some (v :: vs)
    | _, _ => none

/-- `np.hstack` of five equally long column vectors into a batch of rows. -/
def hstack5 (c0 c1 c2 c3 c4 : List ℝ) : List (List ℝ) :=
  List.zipWith (fun a r => a :: r) c0
    (List.zipWith (fun a r => a :: r) c1
      (List.zipWith (fun a r => a :: r) c2
        (List.zipWith (fun a r => a :: r) c3 (c4.map fun a => [a]))))

/-- `np.hstack` of four equally long column vectors into a batch of rows. -/
def hstack4 (c0 c1 c2 c3 : List ℝ) : List (List ℝ) :=
  List.zipWith (fun a r => a :: r) c0
    (List.zipWith (fun a r => a :: r) c1
      (List.zipWith (fun a r => a :: r) c2 (c3.map fun a => [a])))

/-- The `ndim == 1` path of `CartpoleDynamics.augment_state`: tuple
unpacking `x, x_dot, theta, theta_dot = state` raises unless the vector
has exactly four entries. -/
noncomputable def augment_stateV (state : List ℝ) : Option (List ℝ) :=
  match state with
  | [x, x_dot, theta, theta_dot] =>
    some [x, x_dot, Real.sin theta, Real.cos theta, theta_dot]
  | _ => none

/-- The `ndim == 1` path of `CartpoleDynamics.reduce_state`: tuple
unpacking raises unless the vector has exactly five entries. -/
noncomputable def reduce_stateV (state : List ℝ) : Option (List ℝ) :=
  match state with
  | [x, x_dot, sin_theta, cos_theta, theta_dot] =>
    some [x, x_dot, arctan2 sin_theta cos_theta, theta_dot]
  | _ => none

/-- The batch (`ndim == 2`) path of `CartpoleDynamics.augment_state`:
columns 0–3 are extracted (raising if out of range) and re-stacked with
`theta` replaced by its sine and cosine. -/
noncomputable def augment_stateB (state : List (List ℝ)) : Option (List (List ℝ)) :=
  match getCol state 0, getCol state 1, getCol state 2, getCol state 3 with
  | some x, some x_dot, some theta, some theta_dot =>
    some (hstack5 x x_dot (theta.map Real.sin) (theta.map Real.cos) theta_dot)
  | _, _, _, _ => none

/-- The batch (`ndim == 2`) path of `CartpoleDynamics.reduce_state`:
columns 0–4 are extracted (raising if out of range) and re-stacked with
`(sin_theta, cos_theta)` collapsed via `arctan2`. -/
noncomputable def reduce_stateB (state : List (List ℝ)) : Option (List (List ℝ)) :=
  match getCol state 0, getCol state 1, getCol state 2, getCol state 3,
      getCol state 4 with
  | some x, some x_dot, some sin_theta, some cos_theta, some theta_dot =>
    some (hstack4 x x_dot
      (List.zipWith (fun s c => arctan2 s c) sin_theta cos_theta) theta_dot)
  | _, _, _, _, _ => none

/-- C4: the single-vector and batch code paths agree on a 1-row batch:
`augment([s]) = [augment(s)]` for every length-4 reduced state `s`, and
likewise `reduce` on a 1-row batch of a length-5 augmented state. -/
theorem batch_singleton_equivalence :
    (∀ x x_dot theta theta_dot : ℝ,
      augment_stateB [[x, x_dot, theta, theta_dot]] =
        (augment_stateV [x, x_dot, theta, theta_dot]).map fun v => [v]) ∧
      ∀ x x_dot sin_theta cos_theta theta_dot : ℝ,
        reduce_stateB [[x, x_dot, sin_theta, cos_theta, theta_dot]] =
          (reduce_stateV [x, x_dot, sin_theta, cos_theta, theta_dot]).map
            fun v => [v] :=
  ⟨fun _ _ _ _ => rfl, fun _ _ _ _ _ => rfl⟩

/-- Helper: element access past the end of a row fails. -/
theorem getEntry_eq_none : ∀ (r : List ℝ) (j : ℕ), r.length ≤ j → getEntry r j = none := by
  intro r
  induction r with
  | nil => intro j _; rfl
  | cons a t ih =>
    intro j h
    cases j with
    | zero => simp at h
    | succ k =>
      have ht : t.length ≤ k := by simp [List.length_cons] at h; omega
      exact ih k ht

/-- Helper: a column extraction fails as soon as one row is too short. -/
theorem getCol_eq_none {j : ℕ} :
    ∀ {m : List (List ℝ)} {r : List ℝ}, r ∈ m → getEntry r j = none →
      getCol m j = none := by
  intro m
  induction m with
  | nil => intro r hr _; cases hr
  | cons row rest ih =>
    intro r hr h
    rcases List.mem_cons.mp hr with h1 | h2
    · subst h1
      unfold getCol
      split <;> simp_all
    · have hnone := ih h2 h
      unfold getCol
      split <;> simp_all

/-- Counterexample to C8: a 2-D batch with the wrong column count (one row
of six entries where four are expected) does not fail fast — the batch path
of `augment_state` only reads columns 0–3 and silently returns a result,
ignoring the extra columns. -/
theorem malformed_shape_counterexample :
    augment_stateB [[0, 0, 0, 0, 0, 0]] =
      some [[0, 0, Real.sin 0, Real.cos 0, 0]] := rfl

/-- C8 (amended): 1-D vectors of wrong length (≠ 4 for `augment_state`,
≠ 5 for `reduce_state`) and 2-D batches with too few columns fail fast with
a shape error from the numeric layer, not locally caught; batches with
extra columns, however, are silently accepted with the extras ignored. -/
theorem malformed_shape_fail_fast :
    (∀ s : List ℝ, s.length ≠ 4 → augment_stateV s = none) ∧
      (∀ s : List ℝ, s.length ≠ 5 → reduce_stateV s = none) ∧
      (∀ (m : List (List ℝ)) (r : List ℝ), r ∈ m → r.length < 4 →
        augment_stateB m = none) ∧
      ∀ (m : List (List ℝ)) (r : List ℝ), r ∈ m → r.length < 5 →
        reduce_stateB m = none := by
  refine ⟨?_, ?_, ?_, ?_⟩
  · intro s h
    rcases s with _ | ⟨a, _ | ⟨b, _ | ⟨c, _ | ⟨d, _ | ⟨e, t⟩⟩⟩⟩⟩ <;>
      first | rfl | simp at h
  · intro s h
    rcases s with _ | ⟨a, _ | ⟨b, _ | ⟨c, _ | ⟨d, _ | ⟨e, _ | ⟨f, t⟩⟩⟩⟩⟩⟩ <;>
      first | rfl | simp at h
  · intro m r hr hlen
    have hc : getCol m 3 = none :=
      getCol_eq_none hr (getEntry_eq_none r 3 (by omega))
    unfold augment_stateB
    split <;> simp_all
  · intro m r hr hlen
    have hc : getCol m 4 = none :=
      getCol_eq_none hr (getEntry_eq_none r 4 (by omega))
    unfold reduce_stateB
    split <;> simp_all

/-- Witness for C8 at concrete malformed inputs: a length-3 vector and a
1-row batch of 3 (resp. 4) columns are rejected by both conversions. -/
theorem malformed_shape_fail_fast_witness :
    augment_stateV [0, 0, 0] = none ∧ reduce_stateV [0, 0, 0, 0] = none ∧
      augment_stateB [[0, 0, 0]] = none ∧ reduce_stateB [[0, 0, 0, 0]] = none :=
  ⟨malformed_shape_fail_fast.1 [0, 0, 0] (by simp),
    malformed_shape_fail_fast.2.1 [0, 0, 0, 0] (by simp),
    malformed_shape_fail_fast.2.2.1 [[0, 0, 0]] [0, 0, 0] (by simp) (by simp),
    malformed_shape_fail_fast.2.2.2 [[0, 0, 0, 0]] [0, 0, 0, 0] (by simp) (by simp)⟩

/-- Helper: `tanh` is bounded below by `-1`. -/
theorem neg_one_lt_tanh_aux (x : ℝ) : -1 < Real.tanh x := by
  rw [Real.tanh_eq_sinh_div_cosh, lt_div_iff₀ (Real.cosh_pos x)]
  have h := Real.sinh_lt_cosh (x := -x)
  rw [Real.sinh_neg, Real.cosh_neg] at h
  linarith

/-- Helper: `tanh` is bounded above by `1`. -/
theorem tanh_lt_one_aux (x : ℝ) : Real.tanh x < 1 := by
  rw [Real.tanh_eq_sinh_div_cosh, div_lt_one (Real.cosh_pos x)]
  exact Real.sinh_lt_cosh (x := x)

/-- Counterexample to C5: with physically valid parameters
`mc = 1, mp = 3, l = 1` (all strictly positive) the denominator of step 3
vanishes at `cos_theta = 4/3`, so it is not nonzero for *every* value of
the `cos_theta` symbol — only for values that are genuine cosines. -/
theorem denominator_counterexample :
    (0 : ℝ) < 1 ∧ (0 : ℝ) < 3 ∧ cartpole_denominator 1 3 1 (4 / 3) = 0 := by
  norm_num [cartpole_denominator]

/-- C5 (amended): under `mc > 0`, `mp > 0`, `l > 0` and `cos_theta² ≤ 1`
(true of every genuine cosine, hence of every state produced by
`augment_state` or by the transition function), the denominator
`l*(4/3 - mp*cos_theta²/(mc+mp))` of the angular-acceleration computation
is strictly positive, hence nonzero, so the unguarded division never
divides by zero. -/
theorem denominator_pos (mc mp l c : ℝ) (hmc : 0 < mc) (hmp : 0 < mp)
    (hl : 0 < l) (hc : c ^ 2 ≤ 1) :
    0 < cartpole_denominator mc mp l c ∧ cartpole_denominator mc mp l c ≠ 0 := by
  have hsum : 0 < mc + mp := by linarith
  have h1 : mp * c ^ 2 ≤ mp := by nlinarith
  have h2 : mp * c ^ 2 / (mc + mp) < 1 := by
    rw [div_lt_one hsum]; linarith
  have hpos : 0 < cartpole_denominator mc mp l c := by
    unfold cartpole_denominator
    have : (0 : ℝ) < 4 / 3 - mp * c ^ 2 / (mc + mp) := by linarith
    exact mul_pos hl this
  exact ⟨hpos, ne_of_gt hpos⟩

/-- Witness for C5 at `mc = mp = l = 1`, `cos_theta = 1`. -/
theorem denominator_pos_witness :
    0 < cartpole_denominator 1 1 1 1 ∧ cartpole_denominator 1 1 1 1 ≠ 0 :=
  denominator_pos 1 1 1 1 (by norm_num) (by norm_num) (by norm_num) (by norm_num)

/-- C6: with `constrain = false` the raw control is used unmodified as the
force; with `constrain = true` the effective force lies strictly inside
`(min_bounds, max_bounds)` for every raw control value, given the smooth
saturating squashing collaborator. -/
theorem effective_force_saturation :
    (∀ min_bounds max_bounds u : ℝ, cartpole_F false min_bounds max_bounds u = u) ∧
      ∀ min_bounds max_bounds u : ℝ, min_bounds < max_bounds →
        min_bounds < cartpole_F true min_bounds max_bounds u ∧
          cartpole_F true min_bounds max_bounds u < max_bounds := by
  refine ⟨fun _ _ _ => rfl, fun mn mx u h => ?_⟩
  have h1 : -1 < Real.tanh u := neg_one_lt_tanh_aux u
  have h2 : Real.tanh u < 1 := tanh_lt_one_aux u
  have hd : (0 : ℝ) < (mx - mn) / 2 := by linarith
  constructor <;>
    · simp only [cartpole_F, tensor_constrain, if_true]
      nlinarith [mul_pos hd (show (0 : ℝ) < Real.tanh u + 1 by linarith),
        mul_pos hd (show (0 : ℝ) < 1 - Real.tanh u by linarith)]

/-- Witness for C6: the raw control `5` passes through unmodified when
unconstrained, and the raw control `100` is squashed strictly inside
`(-1, 1)`. -/
theorem effective_force_saturation_witness :
    cartpole_F false (-1) 1 5 = 5 ∧
      -1 < cartpole_F true (-1) 1 100 ∧ cartpole_F true (-1) 1 100 < 1 :=
  ⟨effective_force_saturation.1 (-1) 1 5,
    effective_force_saturation.2 (-1) 1 100 (by norm_num)⟩
